import Mathlib

/-!
A shallow embedding of `src/MCP-Tool-Search-Tool/mcp_tool_search.py`: the
`MCPToolSearchManager`'s configuration loading, server connection, tool
discovery, dispatch and cleanup logic.  External effects (the process
environment, MCP sessions, the JSON and TOON encoders) are modelled as
explicit parameters; Python exceptions are modelled with `Except`, and a
`KeyboardInterrupt` is distinguished from ordinary exceptions because the
code treats them differently.
-/

namespace MCPToolSearch

/-- The process environment, as an association list of variable bindings;
`getenv env v d` models Python's `os.getenv(v, d)`. -/
def getenv (env : List (String × String)) (v : String) (d : String) : String :=
  match env.lookup v with
  | some x => x
  | none => d

/-- Python's `s.startswith(p)`. -/
def startswith (s p : String) : Bool := p.data.isPrefixOf s.data

/-- Python's `s.endswith(p)`. -/
def endswith (s p : String) : Bool := p.data.isSuffixOf s.data

/-- Python's `s[2:-1]`: the string without its first two and last characters. -/
def slice_two_to_last (s : String) : String := String.mk ((s.data.drop 2).dropLast)

/-- The whole-string placeholder test used by `_load_config` (lines 79 and
86): `value.startswith('${') and value.endswith('}')`. -/
def isWholePlaceholder (s : String) : Bool :=
  startswith s "$\x7b" && endswith s "\x7d"

/-- The placeholder substitution applied by `_load_config` (lines 79-81 for
environment-override values and line 86 for argument strings): when the whole
string starts with `${` and ends with `}`, look the enclosed name up in the
process environment with default `""`; otherwise leave the string unchanged. -/
def substPlaceholder (penv : List (String × String)) (s : String) : String :=
  if isWholePlaceholder s then
    getenv penv (slice_two_to_last s) ""
  else s

/-- One entry of the configuration document's server list, as parsed JSON:
each field may be absent (`none`), since `_load_config` performs no
validation of required fields. -/
structure ServerObj where
  name : Option String
  command : Option String
  args : Option (List String)
  env : Option (List (String × String))
deriving DecidableEq, Repr

/-- The parsed configuration document.  `mcp_servers = none` models a JSON
document without the `mcp_servers` key. -/
structure ConfigDoc where
  mcp_servers : Option (List ServerObj)
deriving DecidableEq, Repr

/-- The per-server part of `_load_config`'s substitution loop: placeholder
substitution over the `env` values (when present) and over the `args`
strings (when present); `name` and `command` are never examined. -/
def substServer (penv : List (String × String)) (s : ServerObj) : ServerObj :=
  { s with
    env := s.env.map (List.map (fun kv => (kv.1, substPlaceholder penv kv.2)))
    args := s.args.map (List.map (substPlaceholder penv)) }

/-- `MCPToolSearchManager._load_config` (lines 68-90), after JSON parsing:
iterates over `config['mcp_servers']` (a missing key raises a `KeyError`,
modelled as `Except.error`), substitutes environment placeholders in each
server's `env` values and `args`, and returns the document.  No
well-formedness validation is performed. -/
def load_config (penv : List (String × String)) (doc : ConfigDoc) :
    Except String ConfigDoc :=
  match doc.mcp_servers with
  | none => .error "KeyError: mcp_servers"
  | some servers => .ok { mcp_servers := some (servers.map (substServer penv)) }

/-- The namespaced tool name computed in `fetch_tools_from_server`
(line 192): `f"{server_name}_{tool.name}"`. -/
def namespacedName (serverName toolName : String) : String :=
  serverName ++ "_" ++ toolName

/-- `true` when a string contains no underscore character. -/
def underscoreFree (s : String) : Bool := s.data.all (fun c => c != '_')

/-- The outcome of one awaited step during `connect_to_server`: it returns
normally, raises an ordinary exception (`Exception`), or raises a
`KeyboardInterrupt`. -/
inductive StepOutcome
  | ok
  | exc (msg : String)
  | interrupt
deriving DecidableEq, Repr

/-- The behaviour of the external world during one `connect_to_server` call:
the outcome of entering the stdio transport context (process launch and
transport establishment, line 131) and the wall-clock seconds it takes, the
outcome of entering the session context (line 139), and the outcome of
`session.initialize()` (line 145) together with the seconds the handshake
takes. -/
structure ConnectBehavior where
  launchEnter : StepOutcome
  launchTime : Nat
  sessionEnter : StepOutcome
  initOutcome : StepOutcome
  initTime : Nat
deriving DecidableEq, Repr

/-- How a `connect_to_server` call ends: it returns the new session, returns
`None`, or re-raises a `KeyboardInterrupt` to its caller. -/
inductive ConnectOutcome
  | sessionReturned
  | noSession
  | interrupted
deriving DecidableEq, Repr

/-- The externally visible events of one `connect_to_server` call, in
order: entering the transport context, entering the session context,
awaiting the transport context's exit, and storing the transport in
`self.transports`. -/
inductive CEvent
  | transportEnter
  | sessionEnter
  | transportExit
  | storeTransport
deriving DecidableEq, Repr

/-- `MCPToolSearchManager.connect_to_server` (lines 92-172).  The transport
context is entered outside the timeout (line 131); `anyio.fail_after
timeout` bounds only `session.initialize()` (lines 142-145), raising
`TimeoutError` when the handshake takes longer than `timeout`; on timeout
the transport's exit is awaited and `None` is returned (lines 153-158); any
other exception after the transport was entered first awaits the
transport's exit and then re-raises (lines 159-162), reaching the outer
handler which returns `None` (lines 167-172); a `KeyboardInterrupt` is
re-raised by the outer handler (lines 164-166) and is caught by none of the
inner handlers. -/
def connect_to_server (b : ConnectBehavior) (timeout : Nat) :
    ConnectOutcome × List CEvent :=
  match b.launchEnter with
  | .interrupt => (.interrupted, [])
  | .exc _ => (.noSession, [])
  | .ok =>
    match b.sessionEnter with
    | .interrupt => (.interrupted, [.transportEnter])
    | .exc _ => (.noSession, [.transportEnter, .transportExit])
    | .ok =>
      if timeout < b.initTime then
        (.noSession, [.transportEnter, .sessionEnter, .transportExit])
      else
        match b.initOutcome with
        | .interrupt => (.interrupted, [.transportEnter, .sessionEnter])
        | .exc _ => (.noSession, [.transportEnter, .sessionEnter, .transportExit])
        | .ok => (.sessionReturned, [.transportEnter, .sessionEnter, .storeTransport])

/-- One tool as reported by an MCP server's `list_tools` reply: its original
name, its description (`none` models a tool whose description attribute is
`None`), and its input schema (kept opaque). -/
structure ToolSpec where
  name : String
  description : Option String
  inputSchema : String
deriving DecidableEq, Repr

/-- A tool definition in Anthropic format, as built by
`fetch_tools_from_server` (lines 191-196). -/
structure ToolDef where
  name : String
  description : String
  input_schema : String
  defer_loading : Bool
deriving DecidableEq, Repr

/-- The entry `fetch_tools_from_server` records in `self.tool_to_server`
(lines 200-204): owning server, original tool name, and the owning session
(sessions are identified by a numeric id). -/
structure ToolInfo where
  server : String
  original_name : String
  session : Nat
deriving DecidableEq, Repr

/-- Python's `x or y` for an optional string `x` and default `y`: the
default is used when the attribute is `None` or the empty string (both are
falsy). -/
def pyOrString (x : Option String) (y : String) : String :=
  match x with
  | none => y
  | some s => if s = "" then y else s

/-- Insertion into a Python `dict` modelled as an association list: an
existing key keeps its position and gets the new value, a new key is
appended. -/
def dictInsert {α : Type} (l : List (String × α)) (k : String) (v : α) :
    List (String × α) :=
  if (l.lookup k).isSome then
    l.map (fun p => if p.1 == k then (k, v) else p)
  else l ++ [(k, v)]

/-- The loop body of `fetch_tools_from_server` (lines 189-204): convert one
reported tool to a namespaced `ToolDef`, append it to the tool list, and
record its binding in `tool_to_server`. -/
def fetchFold (defer_loading : Bool) (server_name : String) (session : Nat)
    (acc : List ToolDef × List (String × ToolInfo)) (spec : ToolSpec) :
    List ToolDef × List (String × ToolInfo) :=
  let tdef : ToolDef :=
    { name := namespacedName server_name spec.name
      description := pyOrString spec.description
        ("Tool from " ++ server_name ++ " MCP server")
      input_schema := spec.inputSchema
      defer_loading := defer_loading }
  (acc.1 ++ [tdef],
   dictInsert acc.2 tdef.name ⟨server_name, spec.name, session⟩)

/-- `MCPToolSearchManager.fetch_tools_from_server` (lines 174-211), with the
server's `list_tools` reply as an oracle: when the call raises, the function
returns `[]` and leaves `tool_to_server` unchanged (lines 209-211); when it
succeeds, each reported tool is converted to a namespaced `ToolDef` and
recorded in `tool_to_server`.  Returns the converted tools and the updated
`tool_to_server` map. -/
def fetch_tools_from_server (defer_loading : Bool) (server_name : String)
    (session : Nat) (listReply : Except String (List ToolSpec))
    (tool_to_server : List (String × ToolInfo)) :
    List ToolDef × List (String × ToolInfo) :=
  match listReply with
  | .error _ => ([], tool_to_server)
  | .ok specs =>
    specs.foldl (fetchFold defer_loading server_name session)
      ([], tool_to_server)

/-- What the external world does for one configured server during
`initialize_all_servers`: its name, the behaviour of its connection
attempt, and its `list_tools` reply (used only if the connection
succeeds). -/
structure ServerRun where
  name : String
  behavior : ConnectBehavior
  listReply : Except String (List ToolSpec)
deriving Repr

/-- The manager state that `initialize_all_servers` builds: `sessions` maps
a server name to its session id, `all_tools` is the flat tool list, and
`tool_to_server` maps a namespaced tool name to its binding. -/
structure MgrState where
  sessions : List (String × Nat)
  all_tools : List ToolDef
  tool_to_server : List (String × ToolInfo)
deriving DecidableEq, Repr

/-- The empty manager state (`__init__`, lines 58-61). -/
def initState : MgrState := ⟨[], [], []⟩

/-- The loop body of `initialize_all_servers` (lines 221-229), with session
ids assigned by the server's position: connect with the default timeout of
30 seconds; when a session is returned, store it in `sessions` and extend
`all_tools` with the server's fetched tools; a `KeyboardInterrupt` raised
during a connection attempt propagates out of the loop. -/
def initServersLoop (defer_loading : Bool) :
    List ServerRun → Nat → MgrState → Except String MgrState
  | [], _, st => .ok st
  | r :: rest, idx, st =>
    match (connect_to_server r.behavior 30).1 with
    | .interrupted => .error "KeyboardInterrupt"
    | .noSession => initServersLoop defer_loading rest (idx + 1) st
    | .sessionReturned =>
      let fetched := fetch_tools_from_server defer_loading r.name idx
        r.listReply st.tool_to_server
      initServersLoop defer_loading rest (idx + 1)
        { sessions := dictInsert st.sessions r.name idx
          all_tools := st.all_tools ++ fetched.1
          tool_to_server := fetched.2 }

/-- `MCPToolSearchManager.initialize_all_servers` (lines 213-240), started
from the empty manager state. -/
def initialize_all_servers (defer_loading : Bool) (runs : List ServerRun) :
    Except String MgrState :=
  initServersLoop defer_loading runs 0 initState

/-- The number of tools a server contributes to `all_tools`: zero unless
its connection returned a session and its `list_tools` call succeeded. -/
def toolContribution (r : ServerRun) : Nat :=
  match (connect_to_server r.behavior 30).1, r.listReply with
  | .sessionReturned, .ok specs => specs.length
  | _, _ => 0

/-- A structured JSON-like value: the data handed to `_encode_result`
before serialization. -/
inductive JVal
  | str (s : String)
  | bool (b : Bool)
  | num (n : Int)
  | arr (items : List JVal)
  | obj (fields : List (String × JVal))

/-- A key lookup in an object value; `none` on a missing key or a
non-object. -/
def jLookup (v : JVal) (k : String) : Option JVal :=
  match v with
  | .obj fields => fields.lookup k
  | _ => none

/-- One item of an MCP call result's `content` list: either it has a
`text` attribute or it does not. -/
inductive ContentItem
  | textItem (t : String)
  | noText

/-- How one `session.call_tool` await ends: it raises an exception
(`msg` is Python's `str(e)`), returns a result carrying a `content` list
(`contentRepr` is `str(result.content)`), or returns a result without a
`content` attribute (`resultRepr` is `str(result)`). -/
inductive CallOutcome
  | raises (msg : String)
  | contentResult (items : List ContentItem) (contentRepr : String)
  | plainResult (resultRepr : String)

/-- The `content_parts` collection of `execute_tool` (lines 266-269): the
`text` of every content item that has one. -/
def contentParts (items : List ContentItem) : List String :=
  items.filterMap (fun i =>
    match i with
    | .textItem t => some t
    | .noText => none)

/-- The `try` block of `execute_tool` (lines 260-286), which either raises
(when the `session.call_tool` await raises) or produces the success
dictionary: join the text parts with newlines (falling back to
`str(result.content)` when no part has text), try `json.loads` on the
joined string (`jsonLoads` returning `none` models the parse raising, line
275), and wrap the data as `{"success": True, "result": ...}`. -/
def tryCallBlock (callTool : Nat → String → JVal → CallOutcome)
    (jsonLoads : String → Option JVal) (info : ToolInfo) (arguments : JVal) :
    Except String JVal :=
  match callTool info.session info.original_name arguments with
  | .raises msg => .error msg
  | .contentResult items contentRepr =>
    let parts := contentParts items
    let content_str := if parts.isEmpty then contentRepr
      else String.intercalate "\n" parts
    let content_data : JVal :=
      match jsonLoads content_str with
      | some v => v
      | none => .str content_str
    .ok (.obj [("success", .bool true), ("result", content_data)])
  | .plainResult s => .ok (.obj [("success", .bool true), ("result", .str s)])

/-- The structured outcome of `MCPToolSearchManager.execute_tool` (lines
242-292), before `_encode_result`: an unknown tool name yields the
`{"error": ...}` dictionary (lines 253-254); a raising call is caught and
yields `{"success": False, "error": str(e)}` (lines 288-292); otherwise the
`try` block's success dictionary is returned.  The `Except.error` case
would model an exception escaping `execute_tool`; no path produces it. -/
def execute_tool_outcome (callTool : Nat → String → JVal → CallOutcome)
    (jsonLoads : String → Option JVal)
    (tool_to_server : List (String × ToolInfo))
    (tool_name : String) (arguments : JVal) : Except String JVal :=
  match tool_to_server.lookup tool_name with
  | none => .ok (.obj [("error", .str ("Unknown tool: " ++ tool_name))])
  | some info =>
    match tryCallBlock callTool jsonLoads info arguments with
    | .ok v => .ok v
    | .error e => .ok (.obj [("success", .bool false), ("error", .str e)])

/-- `MCPToolSearchManager._encode_result` (lines 294-298): serialize with
the TOON encoder when `use_toon` is set, otherwise with `json.dumps`; both
encoders are parameters, since they live outside the repository. -/
def encode_result (use_toon : Bool) (jsonDumps toonEncode : JVal → String)
    (data : JVal) : String :=
  if use_toon then toonEncode data else jsonDumps data

/-- `MCPToolSearchManager.execute_tool` (lines 242-292): the structured
outcome of dispatch, serialized per the configured encoding (every return
site of the Python function passes its dictionary through
`_encode_result`). -/
def execute_tool (callTool : Nat → String → JVal → CallOutcome)
    (jsonLoads : String → Option JVal)
    (use_toon : Bool) (jsonDumps toonEncode : JVal → String)
    (tool_to_server : List (String × ToolInfo))
    (tool_name : String) (arguments : JVal) : Except String String :=
  (execute_tool_outcome callTool jsonLoads tool_to_server tool_name
    arguments).map (encode_result use_toon jsonDumps toonEncode)

/-- How one awaited `__aexit__` during `cleanup` behaves: it returns, or it
raises (any `BaseException`). -/
inductive CloseBehavior
  | ok
  | raises (msg : String)
deriving DecidableEq, Repr

/-- An awaited close, as an exception-aware step. -/
def awaitClose (b : CloseBehavior) : Except String Unit :=
  match b with
  | .ok => .ok ()
  | .raises msg => .error msg

/-- The teardown events of one `cleanup` call: closing the i-th session
handle, and closing a named transport; `errored` records whether the await
raised (the exception is swallowed either way). -/
inductive TEvent
  | sessionClosed (i : Nat) (errored : Bool)
  | transportClosed (server : String) (errored : Bool)
deriving DecidableEq, Repr

/-- `true` exactly on session-close events. -/
def isSessionEvent : TEvent → Bool
  | .sessionClosed _ _ => true
  | .transportClosed _ _ => false

/-- The manager state `cleanup` sees: the close behaviour of every stored
session handle, and of every stored transport with its server name.  The
Python method clears neither dictionary, so the state after a `cleanup` is
again a `CleanupWorld`. -/
structure CleanupWorld where
  sessions : List CloseBehavior
  transports : List (String × CloseBehavior)

/-- One iteration of `cleanup`'s session loop (lines 303-307): await the
i-th session handle's exit inside `try ... except BaseException: pass`. -/
def sessionCloseEvent (p : Nat × CloseBehavior) : TEvent :=
  match awaitClose p.2 with
  | .ok _ => .sessionClosed p.1 false
  | .error _ => .sessionClosed p.1 true

/-- One iteration of `cleanup`'s transport loop (lines 312-318): await the
named transport's exit inside `try ... except BaseException: pass`. -/
def transportCloseEvent (p : String × CloseBehavior) : TEvent :=
  match awaitClose p.2 with
  | .ok _ => .transportClosed p.1 false
  | .error _ => .transportClosed p.1 true

/-- `MCPToolSearchManager.cleanup` (lines 300-318): await each session
handle's exit, swallowing any `BaseException` (lines 303-307); return early
when no transport was stored (lines 309-310); then await each transport's
exit, again swallowing any `BaseException` (lines 312-318).  The
`Except.error` case would model an exception escaping `cleanup`; every
await is wrapped, so no path produces it. -/
def cleanup (w : CleanupWorld) : Except String (List TEvent) :=
  let sessionEvents := w.sessions.enum.map sessionCloseEvent
  if w.transports.isEmpty then .ok sessionEvents
  else .ok (sessionEvents ++ w.transports.map transportCloseEvent)

/-- A configuration document with two identically named server entries, the
second of which also lacks the `command` field. -/
def dupConfigDoc : ConfigDoc :=
  { mcp_servers := some [
      { name := some "github", command := some "npx", args := some ["run"],
        env := some [] },
      { name := some "github", command := none, args := none, env := none } ] }

/-- A configuration document whose one server references an unset
environment variable in its argument list. -/
def missingVarDoc : ConfigDoc :=
  { mcp_servers := some [
      { name := some "fs", command := some "npx",
        args := some ["$\x7bMISSING_VAR\x7d"], env := none } ] }

/-- A server whose connection succeeds (handshake within the default
timeout) and which reports two tools. -/
def runA : ServerRun :=
  ⟨"A", ⟨.ok, 0, .ok, .ok, 1⟩,
   .ok [⟨"x", some "dx", "s1"⟩, ⟨"y", none, "s2"⟩]⟩

/-- A server whose handshake exceeds the default 30-second timeout. -/
def runB : ServerRun :=
  ⟨"B", ⟨.ok, 0, .ok, .ok, 31⟩, .ok [⟨"z", some "dz", "s3"⟩]⟩

/-- A server whose connection succeeds but whose `list_tools` call
raises. -/
def runC : ServerRun :=
  ⟨"C", ⟨.ok, 0, .ok, .ok, 2⟩, .error "ListToolsFailure"⟩

/-- The manager state produced by `initialize_all_servers` on
`[runA, runB, runC]`: servers A and C hold sessions, and only A's two tools
were discovered. -/
def abcState : MgrState :=
  { sessions := [("A", 0), ("C", 2)]
    all_tools := [
      { name := "A_x", description := "dx", input_schema := "s1",
        defer_loading := false },
      { name := "A_y", description := "Tool from A MCP server",
        input_schema := "s2", defer_loading := false } ]
    tool_to_server := [
      ("A_x", ⟨"A", "x", 0⟩),
      ("A_y", ⟨"A", "y", 0⟩) ] }

end MCPToolSearch

namespace MCPToolSearch

/-! Helper lemmas shared by the claim theorems. -/

/-- A string of the exact form `${V}` passes the whole-string test and
substitutes to the environment's value of `V` (default `""`). -/
theorem substPlaceholder_whole (penv : List (String × String)) (V : String) :
    substPlaceholder penv ("$\x7b" ++ V ++ "\x7d") = getenv penv V "" := by
  have h1 : startswith ("$\x7b" ++ V ++ "\x7d") "$\x7b" = true := by
    simp [startswith, String.data_append, List.isPrefixOf]
  have h2 : endswith ("$\x7b" ++ V ++ "\x7d") "\x7d" = true := by
    simp [endswith, String.data_append, List.isSuffixOf, List.isPrefixOf]
  have h3 : slice_two_to_last ("$\x7b" ++ V ++ "\x7d") = V := by
    simp [slice_two_to_last, String.data_append]
  simp [substPlaceholder, isWholePlaceholder, h1, h2, h3]

/-- A string failing the whole-string test is left unchanged. -/
theorem substPlaceholder_skip (penv : List (String × String)) (s : String)
    (h : isWholePlaceholder s = false) : substPlaceholder penv s = s := by
  simp [substPlaceholder, h]

/-- A map whose function fixes every element of the list is the
identity. -/
theorem map_id_on {α : Type} (f : α → α) (l : List α) (h : ∀ a ∈ l, f a = a) :
    l.map f = l := by
  induction l with
  | nil => rfl
  | cons a t ih =>
    simp only [List.map_cons, h a (by simp)]
    rw [ih (fun x hx => h x (by simp [hx]))]

/-- Splitting at an underscore separator is unambiguous when neither left
part contains an underscore. -/
theorem sep_inj {l1 r1 l2 r2 : List Char}
    (h1 : ∀ c ∈ l1, c ≠ '_') (h2 : ∀ c ∈ l2, c ≠ '_')
    (h : l1 ++ '_' :: r1 = l2 ++ '_' :: r2) : l1 = l2 ∧ r1 = r2 := by
  induction l1 generalizing l2 with
  | nil =>
    cases l2 with
    | nil => simpa using h
    | cons b t2 =>
      exfalso
      simp at h
      exact h2 b (by simp) h.1.symm
  | cons a t1 ih =>
    cases l2 with
    | nil =>
      exfalso
      simp at h
      exact h1 a (by simp) h.1
    | cons b t2 =>
      simp at h
      obtain ⟨hab, ht⟩ := h
      have := ih (fun c hc => h1 c (by simp [hc])) (fun c hc => h2 c (by simp [hc])) ht
      exact ⟨by simp [hab, this.1], this.2⟩

/-- The namespacing rule is injective when both server names are free of
underscores. -/
theorem namespacedName_inj {s1 n1 s2 n2 : String}
    (u1 : underscoreFree s1 = true) (u2 : underscoreFree s2 = true)
    (h : namespacedName s1 n1 = namespacedName s2 n2) : s1 = s2 ∧ n1 = n2 := by
  have hd : s1.data ++ '_' :: n1.data = s2.data ++ '_' :: n2.data := by
    have := congrArg String.data h
    simpa [namespacedName, String.data_append] using this
  have w1 : ∀ c ∈ s1.data, c ≠ '_' := by
    intro c hc
    have := List.all_eq_true.mp u1 c hc
    simpa using this
  have w2 : ∀ c ∈ s2.data, c ≠ '_' := by
    intro c hc
    have := List.all_eq_true.mp u2 c hc
    simpa using this
  obtain ⟨e1, e2⟩ := sep_inj w1 w2 hd
  exact ⟨String.ext e1, String.ext e2⟩

/-- A key whose lookup succeeds is among the association list's keys. -/
theorem lookup_isSome_mem {α : Type} (l : List (String × α)) (k : String)
    (h : (l.lookup k).isSome = true) : k ∈ l.map Prod.fst := by
  induction l with
  | nil => simp [List.lookup] at h
  | cons p t ih =>
    rw [List.lookup] at h
    cases hk : (k == p.1) with
    | true =>
      simp only [List.map_cons, List.mem_cons]
      exact Or.inl (eq_of_beq hk)
    | false =>
      rw [hk] at h
      simp only [List.map_cons, List.mem_cons]
      exact Or.inr (ih h)

/-- After a dictionary insertion the inserted key is present. -/
theorem dictInsert_keys_self {α : Type} (l : List (String × α)) (k : String) (v : α) :
    k ∈ (dictInsert l k v).map Prod.fst := by
  unfold dictInsert
  by_cases h : (l.lookup k).isSome
  · rw [if_pos h]
    obtain ⟨p, hp, hpk⟩ := List.mem_map.mp (lookup_isSome_mem l k h)
    refine List.mem_map.mpr ⟨(k, v), ?_, rfl⟩
    refine List.mem_map.mpr ⟨p, hp, ?_⟩
    rw [if_pos (by simp [hpk])]
  · rw [if_neg h]
    simp

/-- A dictionary insertion never removes a key. -/
theorem dictInsert_keys_mono {α : Type} (l : List (String × α)) (k : String) (v : α)
    (a : String) (h : a ∈ l.map Prod.fst) : a ∈ (dictInsert l k v).map Prod.fst := by
  unfold dictInsert
  by_cases hs : (l.lookup k).isSome
  · rw [if_pos hs]
    obtain ⟨p, hp, hpa⟩ := List.mem_map.mp h
    by_cases hc : p.1 == k
    · refine List.mem_map.mpr ⟨(k, v), List.mem_map.mpr ⟨p, hp, by rw [if_pos hc]⟩, ?_⟩
      have : p.1 = k := eq_of_beq hc
      simp [← hpa, this]
    · exact List.mem_map.mpr ⟨p, List.mem_map.mpr ⟨p, hp, by rw [if_neg hc]⟩, hpa⟩
  · rw [if_neg hs]
    simp only [List.map_append, List.mem_append]
    exact Or.inl h

/-- Folding the fetch loop body over a reply adds one tool per reported
tool. -/
theorem fetchFold_len (d : Bool) (sn : String) (sid : Nat) (specs : List ToolSpec) :
    ∀ acc : List ToolDef × List (String × ToolInfo),
      (specs.foldl (fetchFold d sn sid) acc).1.length = acc.1.length + specs.length := by
  induction specs with
  | nil => intro acc; simp
  | cons spec rest ih =>
    intro acc
    rw [List.foldl_cons, ih]
    simp [fetchFold]
    omega

/-- `fetch_tools_from_server` returns as many tools as the reply reported,
and zero when the listing call raised. -/
theorem fetch_tools_len (d : Bool) (sn : String) (sid : Nat)
    (reply : Except String (List ToolSpec)) (reg : List (String × ToolInfo)) :
    (fetch_tools_from_server d sn sid reply reg).1.length =
      match reply with
      | .ok specs => specs.length
      | .error _ => 0 := by
  cases reply with
  | error e => rfl
  | ok specs =>
    simp only [fetch_tools_from_server]
    rw [fetchFold_len]
    simp

/-- Through the initialization loop, `all_tools` grows by exactly the sum
of the per-server contributions. -/
theorem initServersLoop_len (d : Bool) (runs : List ServerRun) :
    ∀ (idx : Nat) (st st' : MgrState), initServersLoop d runs idx st = .ok st' →
      st'.all_tools.length = st.all_tools.length + (runs.map toolContribution).sum := by
  induction runs with
  | nil =>
    intro idx st st' h
    simp only [initServersLoop] at h
    cases h
    simp
  | cons r rest ih =>
    intro idx st st' h
    simp only [initServersLoop] at h
    cases hcon : (connect_to_server r.behavior 30).1 with
    | interrupted => rw [hcon] at h; cases h
    | noSession =>
      rw [hcon] at h
      have := ih (idx + 1) st st' h
      rw [this]
      have hc : toolContribution r = 0 := by
        unfold toolContribution
        rw [hcon]
      simp [hc]
    | sessionReturned =>
      rw [hcon] at h
      have := ih (idx + 1) _ st' h
      rw [this]
      simp only [List.map_cons, List.sum_cons, List.length_append]
      have hc : (fetch_tools_from_server d r.name idx r.listReply st.tool_to_server).1.length
          = toolContribution r := by
        rw [fetch_tools_len]
        unfold toolContribution
        rw [hcon]
        cases r.listReply <;> rfl
      omega

/-- The initialization loop never removes a session entry. -/
theorem initServersLoop_sessions_mono (d : Bool) (runs : List ServerRun) :
    ∀ (idx : Nat) (st st' : MgrState), initServersLoop d runs idx st = .ok st' →
      ∀ a, a ∈ st.sessions.map Prod.fst → a ∈ st'.sessions.map Prod.fst := by
  induction runs with
  | nil =>
    intro idx st st' h a ha
    simp only [initServersLoop] at h
    cases h
    exact ha
  | cons r rest ih =>
    intro idx st st' h a ha
    simp only [initServersLoop] at h
    cases hcon : (connect_to_server r.behavior 30).1 with
    | interrupted => rw [hcon] at h; cases h
    | noSession =>
      rw [hcon] at h
      exact ih (idx + 1) st st' h a ha
    | sessionReturned =>
      rw [hcon] at h
      exact ih (idx + 1) _ st' h a (dictInsert_keys_mono _ _ _ _ ha)

/-- Every run whose connection returned a session keeps an entry in
`sessions` at the end of the loop, whatever its listing reply did. -/
theorem initServersLoop_session_kept (d : Bool) (runs : List ServerRun) :
    ∀ (idx : Nat) (st st' : MgrState), initServersLoop d runs idx st = .ok st' →
      ∀ r ∈ runs, (connect_to_server r.behavior 30).1 = .sessionReturned →
        r.name ∈ st'.sessions.map Prod.fst := by
  induction runs with
  | nil => intro idx st st' h r hr; cases hr
  | cons q rest ih =>
    intro idx st st' h r hr hcon
    simp only [initServersLoop] at h
    rcases List.mem_cons.mp hr with rfl | hmem
    · rw [hcon] at h
      exact initServersLoop_sessions_mono d rest (idx + 1) _ st' h r.name
        (dictInsert_keys_self _ _ _)
    · cases hq : (connect_to_server q.behavior 30).1 with
      | interrupted => rw [hq] at h; cases h
      | noSession =>
        rw [hq] at h
        exact ih (idx + 1) st st' h r hmem hcon
      | sessionReturned =>
        rw [hq] at h
        exact ih (idx + 1) _ st' h r hmem hcon

end MCPToolSearch

namespace MCPToolSearch

/-! The claim theorems. -/

/-- C1: for every server behaviour and timeout, `connect_to_server` applies
the timeout only to the session-initialization handshake — its result does
not depend on how long process launch and transport establishment take —
and whenever the handshake exceeds the timeout, the transport's exit is
awaited and the call returns no session (`None`) rather than raising. -/
theorem connect_timeout_only_handshake (b : ConnectBehavior) (timeout : Nat)
    (hl : b.launchEnter = .ok) (hs : b.sessionEnter = .ok) :
    (∀ t : Nat, connect_to_server { b with launchTime := t } timeout =
      connect_to_server b timeout) ∧
    (timeout < b.initTime →
      connect_to_server b timeout =
        (.noSession, [.transportEnter, .sessionEnter, .transportExit])) := by
  obtain ⟨le, lt, se, io, it⟩ := b
  simp only at hl hs
  subst hl; subst hs
  constructor
  · intro t; rfl
  · intro h
    simp only [connect_to_server]
    rw [if_pos h]

/-- C1 witness: a launch that takes 1000 seconds with a 31-second handshake
under a 30-second timeout — the handshake times out, the transport exit is
awaited, and `None` is returned. -/
theorem connect_timeout_only_handshake_witness :
    connect_to_server ⟨.ok, 1000, .ok, .ok, 31⟩ 30 =
      (.noSession, [.transportEnter, .sessionEnter, .transportExit]) :=
  (connect_timeout_only_handshake ⟨.ok, 1000, .ok, .ok, 31⟩ 30 rfl rfl).2 (by decide)

/-- C2 counterexample: dispatching an unbound name produces the dictionary
`{"error": "Unknown tool: foo"}`, which has no `success` key at all, so the
claimed `{success: false, error: ...}` shape is wrong for this branch. -/
theorem execute_tool_unknown_no_success_key :
    execute_tool_outcome (fun _ _ _ => .plainResult "") (fun _ => none) [] "foo" (.obj [])
      = .ok (.obj [("error", .str "Unknown tool: foo")]) ∧
    jLookup (JVal.obj [("error", JVal.str "Unknown tool: foo")]) "success" = none :=
  ⟨rfl, rfl⟩

/-- C2 amended: for every name with no binding in `tool_to_server`,
`execute_tool` returns — without raising — the structured failure
`{"error": "Unknown tool: <name>"}` (carrying no `success` key) encoded per
the configured encoding. -/
theorem execute_tool_unknown_structured (callTool : Nat → String → JVal → CallOutcome)
    (jsonLoads : String → Option JVal) (use_toon : Bool)
    (jsonDumps toonEncode : JVal → String)
    (reg : List (String × ToolInfo)) (nm : String) (args : JVal)
    (h : reg.lookup nm = none) :
    execute_tool callTool jsonLoads use_toon jsonDumps toonEncode reg nm args =
      .ok (encode_result use_toon jsonDumps toonEncode
        (.obj [("error", .str ("Unknown tool: " ++ nm))])) ∧
    jLookup (.obj [("error", .str ("Unknown tool: " ++ nm))]) "success" = none := by
  constructor
  · simp [execute_tool, execute_tool_outcome, h, Except.map]
  · rfl

/-- C2 witness: dispatching `"foo"` against an empty registry. -/
theorem execute_tool_unknown_structured_witness :
    execute_tool (fun _ _ _ => .plainResult "") (fun _ => none) false
      (fun _ => "dumped") (fun _ => "tooned") [] "foo" (.obj []) =
      .ok (encode_result false (fun _ => "dumped") (fun _ => "tooned")
        (.obj [("error", .str ("Unknown tool: " ++ "foo"))])) ∧
    jLookup (.obj [("error", .str ("Unknown tool: " ++ "foo"))]) "success" = none :=
  execute_tool_unknown_structured (fun _ _ _ => .plainResult "") (fun _ => none) false
    (fun _ => "dumped") (fun _ => "tooned") [] "foo" (.obj []) rfl

/-- C3: after `initialize_all_servers` completes, the number of tools in
`all_tools` equals the sum over all servers of their contribution — the
reported tool count when both the connection and the listing succeeded,
zero otherwise — and every server whose connection returned a session keeps
an entry in `sessions`, even when its listing call failed. -/
theorem init_all_servers_tool_count (d : Bool) (runs : List ServerRun) (st : MgrState)
    (h : initialize_all_servers d runs = .ok st) :
    st.all_tools.length = (runs.map toolContribution).sum ∧
    (∀ r ∈ runs, (connect_to_server r.behavior 30).1 = .sessionReturned →
      r.name ∈ st.sessions.map Prod.fst) := by
  constructor
  · have := initServersLoop_len d runs 0 initState st h
    simpa [initState] using this
  · exact initServersLoop_session_kept d runs 0 initState st h

/-- C3 witness: server A connects and reports two tools, server B's
handshake times out, server C connects but its listing raises; the final
state holds exactly A's two tools and sessions for A and C. -/
theorem init_all_servers_tool_count_witness :
    abcState.all_tools.length = ([runA, runB, runC].map toolContribution).sum ∧
    (∀ r ∈ [runA, runB, runC], (connect_to_server r.behavior 30).1 = .sessionReturned →
      r.name ∈ abcState.sessions.map Prod.fst) :=
  init_all_servers_tool_count false [runA, runB, runC] abcState rfl

/-- C4: for every registered tool name, if the session's `call_tool` raises
— a closed session being one such behaviour — `execute_tool` captures the
exception and returns the encoded outcome
`{"success": false, "error": str(e)}`, never propagating the fault. -/
theorem execute_tool_fault_captured (callTool : Nat → String → JVal → CallOutcome)
    (jsonLoads : String → Option JVal) (use_toon : Bool)
    (jsonDumps toonEncode : JVal → String)
    (reg : List (String × ToolInfo)) (nm : String) (args : JVal)
    (info : ToolInfo) (msg : String)
    (hreg : reg.lookup nm = some info)
    (hcall : callTool info.session info.original_name args = .raises msg) :
    execute_tool callTool jsonLoads use_toon jsonDumps toonEncode reg nm args =
      .ok (encode_result use_toon jsonDumps toonEncode
        (.obj [("success", .bool false), ("error", .str msg)])) := by
  simp [execute_tool, execute_tool_outcome, tryCallBlock, hreg, hcall, Except.map]

/-- C4 witness: a call against a closed session's resource raises
`ClosedResourceError`; dispatch returns the encoded structured failure. -/
theorem execute_tool_fault_captured_witness :
    execute_tool (fun _ _ _ => .raises "ClosedResourceError") (fun _ => none) false
      (fun _ => "dumped") (fun _ => "tooned")
      [("github_search", ⟨"github", "search", 0⟩)] "github_search" (.obj []) =
      .ok (encode_result false (fun _ => "dumped") (fun _ => "tooned")
        (.obj [("success", .bool false), ("error", .str "ClosedResourceError")])) :=
  execute_tool_fault_captured (fun _ _ _ => .raises "ClosedResourceError") (fun _ => none)
    false (fun _ => "dumped") (fun _ => "tooned")
    [("github_search", ⟨"github", "search", 0⟩)] "github_search" (.obj [])
    ⟨"github", "search", 0⟩ "ClosedResourceError" rfl rfl

/-- C5 counterexample: a document with two identically named servers, the
second also missing its `command` field, loads successfully — no
`ConfigError` (no error of any kind) is raised, refuting the claim that
malformed documents fail at load time. -/
theorem load_config_accepts_malformed :
    (∃ s1 s2 : ServerObj, dupConfigDoc.mcp_servers = some [s1, s2] ∧
      s1.name = s2.name ∧ s2.command = none) ∧
    load_config [] dupConfigDoc = .ok dupConfigDoc := by
  constructor
  · exact ⟨_, _, rfl, rfl, rfl⟩
  · rfl

/-- C5 amended: configuration loading performs no well-formedness
validation: every document carrying the top-level server list — duplicate
server names and missing per-server fields included — loads successfully;
no `ConfigError` exists, and the only load-time failure is a plain
`KeyError` on a document without the `mcp_servers` key. -/
theorem load_config_no_validation (penv : List (String × String)) (doc : ConfigDoc)
    (servers : List ServerObj) (h : doc.mcp_servers = some servers) :
    load_config penv doc =
      .ok { mcp_servers := some (servers.map (substServer penv)) } := by
  simp [load_config, h]

/-- C5 witness: the duplicate-name document loads successfully. -/
theorem load_config_no_validation_witness :
    load_config [("HOME", "/root")] dupConfigDoc =
      .ok { mcp_servers := some
              ((dupConfigDoc.mcp_servers.getD []).map
                (substServer [("HOME", "/root")])) } :=
  load_config_no_validation [("HOME", "/root")] dupConfigDoc _ rfl

/-- C6: a whole-string placeholder `${V}` — as an argument or an
environment-override value — is substituted with the process environment's
value of `V`, the empty string when `V` is unset; loading never fails on
account of a placeholder, and `substServer` applies this substitution to
every argument and environment value. -/
theorem placeholder_substitution (penv : List (String × String)) (V : String)
    (doc : ConfigDoc) (servers : List ServerObj) (h : doc.mcp_servers = some servers) :
    substPlaceholder penv ("$\x7b" ++ V ++ "\x7d") = getenv penv V "" ∧
    (penv.lookup V = none → substPlaceholder penv ("$\x7b" ++ V ++ "\x7d") = "") ∧
    load_config penv doc =
      .ok { mcp_servers := some (servers.map (substServer penv)) } ∧
    (∀ srv : ServerObj, ∀ args : List String, srv.args = some args →
      (substServer penv srv).args = some (args.map (substPlaceholder penv))) ∧
    (∀ srv : ServerObj, ∀ envl : List (String × String), srv.env = some envl →
      (substServer penv srv).env =
        some (envl.map (fun kv => (kv.1, substPlaceholder penv kv.2)))) := by
  refine ⟨substPlaceholder_whole penv V, ?_, by simp [load_config, h], ?_, ?_⟩
  · intro hnone
    rw [substPlaceholder_whole penv V]
    simp [getenv, hnone]
  · intro srv args harg
    simp [substServer, harg]
  · intro srv envl henvl
    simp [substServer, henvl]

/-- C6 witness: `${MISSING_VAR}` in an argument list under an empty
environment resolves to the empty string and the document still loads. -/
theorem placeholder_substitution_witness :
    substPlaceholder [] ("$\x7b" ++ "MISSING_VAR" ++ "\x7d") = getenv [] "MISSING_VAR" "" ∧
    (([] : List (String × String)).lookup "MISSING_VAR" = none →
      substPlaceholder [] ("$\x7b" ++ "MISSING_VAR" ++ "\x7d") = "") ∧
    load_config [] missingVarDoc =
      .ok { mcp_servers := some
              ((missingVarDoc.mcp_servers.getD []).map (substServer [])) } ∧
    (∀ srv : ServerObj, ∀ args : List String, srv.args = some args →
      (substServer [] srv).args = some (args.map (substPlaceholder []))) ∧
    (∀ srv : ServerObj, ∀ envl : List (String × String), srv.env = some envl →
      (substServer [] srv).env =
        some (envl.map (fun kv => (kv.1, substPlaceholder [] kv.2)))) :=
  placeholder_substitution [] "MISSING_VAR" missingVarDoc _ rfl

/-- C7: `cleanup` never raises and needs no precondition: for every manager
state — zero sessions, a state already cleaned once, sessions and
transports whose closes raise — it returns normally, and its teardown trace
closes every session-level handle before any transport. -/
theorem cleanup_never_raises (w : CleanupWorld) :
    (∃ se te : List TEvent,
      cleanup w = .ok (se ++ te) ∧
      se.all isSessionEvent = true ∧
      te.all (fun e => !isSessionEvent e) = true) ∧
    cleanup ⟨[], []⟩ = .ok [] := by
  constructor
  · refine ⟨w.sessions.enum.map sessionCloseEvent,
      if w.transports.isEmpty then [] else w.transports.map transportCloseEvent,
      ?_, ?_, ?_⟩
    · by_cases h : w.transports.isEmpty
      · rw [if_pos h]
        simp only [cleanup]
        rw [if_pos h, List.append_nil]
      · rw [if_neg h]
        simp only [cleanup]
        rw [if_neg h]
    · rw [List.all_eq_true]
      intro e he
      obtain ⟨p, _, rfl⟩ := List.mem_map.mp he
      unfold sessionCloseEvent
      cases awaitClose p.2 <;> rfl
    · by_cases h : w.transports.isEmpty
      · rw [if_pos h]; rfl
      · rw [if_neg h]
        rw [List.all_eq_true]
        intro e he
        obtain ⟨p, _, rfl⟩ := List.mem_map.mp he
        unfold transportCloseEvent
        cases awaitClose p.2 <;> rfl
  · rfl

/-- C8 counterexample: the fixed namespacing rule is not injective on all
distinct (server, original-name) pairs: `("a_b", "c")` and `("a", "b_c")`
are distinct yet both map to `"a_b_c"`. -/
theorem namespacing_collision :
    namespacedName "a_b" "c" = namespacedName "a" "b_c" ∧
    (("a_b", "c") : String × String) ≠ ("a", "b_c") :=
  ⟨rfl, by decide⟩

/-- C8 amended: the namespacing rule `serverName + "_" + originalName` is
injective on distinct pairs whose server names contain no underscore — in
particular two underscore-free servers each exposing `"search"` get
distinct entries. -/
theorem namespacing_injective_underscore_free (s1 n1 s2 n2 : String)
    (u1 : underscoreFree s1 = true) (u2 : underscoreFree s2 = true)
    (hne : (s1, n1) ≠ (s2, n2)) :
    namespacedName s1 n1 ≠ namespacedName s2 n2 := by
  intro h
  obtain ⟨e1, e2⟩ := namespacedName_inj u1 u2 h
  exact hne (by simp [e1, e2])

/-- C8 witness: `serverA_search` and `serverB_search` are distinct. -/
theorem namespacing_injective_witness :
    namespacedName "serverA" "search" ≠ namespacedName "serverB" "search" :=
  namespacing_injective_underscore_free "serverA" "search" "serverB" "search"
    (by decide) (by decide) (by decide)

/-- C9: a `KeyboardInterrupt` raised at any awaited point of
`connect_to_server` — transport entry, session entry, or the handshake —
is re-raised to the caller, while an ordinary exception at the same points
is converted into a `None` return. -/
theorem connect_interrupt_propagates (b : ConnectBehavior) (timeout : Nat) :
    ((b.launchEnter = .interrupt ∨
        (b.launchEnter = .ok ∧ b.sessionEnter = .interrupt) ∨
        (b.launchEnter = .ok ∧ b.sessionEnter = .ok ∧ b.initTime ≤ timeout ∧
          b.initOutcome = .interrupt)) →
      (connect_to_server b timeout).1 = .interrupted) ∧
    (∀ msg : String,
      (b.launchEnter = .exc msg ∨
        (b.launchEnter = .ok ∧ b.sessionEnter = .exc msg) ∨
        (b.launchEnter = .ok ∧ b.sessionEnter = .ok ∧ b.initTime ≤ timeout ∧
          b.initOutcome = .exc msg)) →
      (connect_to_server b timeout).1 = .noSession) := by
  obtain ⟨le, lt, se, io, it⟩ := b
  constructor
  · rintro (h | ⟨h1, h2⟩ | ⟨h1, h2, h3, h4⟩)
    · simp only at h; subst h; rfl
    · simp only at h1 h2; subst h1; subst h2; rfl
    · simp only at h1 h2 h4
      subst h1; subst h2; subst h4
      simp only [connect_to_server]
      rw [if_neg (Nat.not_lt.mpr h3)]
  · rintro msg (h | ⟨h1, h2⟩ | ⟨h1, h2, h3, h4⟩)
    · simp only at h; subst h; rfl
    · simp only at h1 h2; subst h1; subst h2; rfl
    · simp only at h1 h2 h4
      subst h1; subst h2; subst h4
      simp only [connect_to_server]
      rw [if_neg (Nat.not_lt.mpr h3)]

/-- C9 witness: an interrupt during transport entry propagates, while an
ordinary connection error during the handshake yields `None`. -/
theorem connect_interrupt_propagates_witness :
    (connect_to_server ⟨.interrupt, 0, .ok, .ok, 0⟩ 30).1 = .interrupted ∧
    (connect_to_server ⟨.ok, 0, .ok, .exc "ConnectionRefusedError", 5⟩ 30).1 = .noSession :=
  ⟨(connect_interrupt_propagates ⟨.interrupt, 0, .ok, .ok, 0⟩ 30).1 (Or.inl rfl),
   (connect_interrupt_propagates ⟨.ok, 0, .ok, .exc "ConnectionRefusedError", 5⟩ 30).2
     "ConnectionRefusedError" (Or.inr (Or.inr ⟨rfl, rfl, by decide, rfl⟩))⟩

/-- C10: substitution applies only to strings that pass the whole-string
test (start with `${` and end with `}`): every string failing it is left
completely unchanged, and a server all of whose argument and environment
strings fail it comes out of the substitution loop identical. -/
theorem embedded_placeholder_unchanged (penv : List (String × String)) (srv : ServerObj)
    (hargs : ∀ l, srv.args = some l → ∀ a ∈ l, isWholePlaceholder a = false)
    (henv : ∀ l, srv.env = some l → ∀ kv ∈ l, isWholePlaceholder kv.2 = false) :
    (∀ s, isWholePlaceholder s = false → substPlaceholder penv s = s) ∧
    substServer penv srv = srv := by
  refine ⟨fun s hs => substPlaceholder_skip penv s hs, ?_⟩
  have ha : srv.args.map (List.map (substPlaceholder penv)) = srv.args := by
    cases harg : srv.args with
    | none => rfl
    | some l =>
      rw [Option.map_some']
      rw [map_id_on _ l (fun a hx => substPlaceholder_skip penv a (hargs l harg a hx))]
  have he : srv.env.map (List.map (fun kv => (kv.1, substPlaceholder penv kv.2))) = srv.env := by
    cases henvv : srv.env with
    | none => rfl
    | some l =>
      rw [Option.map_some']
      rw [map_id_on _ l (fun kv hx => by
        rw [substPlaceholder_skip penv kv.2 (henv l henvv kv hx)])]
  cases srv with
  | mk nm cmd ar en =>
    simp only [substServer]
    simp_all

/-- C10 witness: `"prefix-${VAR}/suffix"` and friends are left unchanged
even though `VAR` and `SECRET` are set in the environment. -/
theorem embedded_placeholder_unchanged_witness :
    (∀ s, isWholePlaceholder s = false → substPlaceholder [("VAR", "v"), ("SECRET", "s")] s = s) ∧
    substServer [("VAR", "v"), ("SECRET", "s")]
      { name := some "fs", command := some "npx",
        args := some ["prefix-$\x7bVAR\x7d/suffix", "$\x7bVAR\x7d/x"],
        env := some [("TOKEN", "abc-$\x7bSECRET\x7d")] } =
      { name := some "fs", command := some "npx",
        args := some ["prefix-$\x7bVAR\x7d/suffix", "$\x7bVAR\x7d/x"],
        env := some [("TOKEN", "abc-$\x7bSECRET\x7d")] } :=
  embedded_placeholder_unchanged _ _
    (by intro l hl; injection hl with h; subst h; decide)
    (by intro l hl; injection hl with h; subst h; decide)

end MCPToolSearch
